import Mathlib

/-!
Shallow embedding of the telenewsbotAI news pipeline (Go sources under
internal/bot, internal/storage, internal/news_fetcher) and proofs about it.

Conventions of the embedding:
* Go `time.Time` instants and `time.Duration` values are both integers
  counting nanoseconds (Go durations are int64 nanoseconds).
* The SQLite tables behind `storage.Storage` are modelled as Lean lists
  inside `StorageState`; each storage method is translated from its SQL.
* External collaborators (Telegram API sends, the Fetcher's network
  scraping, the Gemini summarizer, admin checks, localization) are
  oracles collected in the `Env` structure; outgoing side effects are
  recorded as `RunEvent` values.
* Context cancellation is modelled by an optional cancellation instant
  `cp : Option Nat` measured in run checkpoints: checkpoint `3*i` is the
  top-of-loop `select ctx.Done()` for stub `i`, `3*i+1` is the
  summarization call for stub `i`, and `3*i+2` is the inter-article
  delay for stub `i`.  Cancellation is permanent, so the context is
  cancelled at checkpoint `p` iff `cp = some c` with `c ≤ p`.
-/

namespace NewsBot

/-- Go `time.Time` instants, as integer nanoseconds since an epoch. -/
abbrev Time := Int

/-- Go `time.Duration`, integer nanoseconds. -/
abbrev Duration := Int

/-- Go `time.Minute` (60 * 10^9 nanoseconds). -/
def minuteNs : Duration := 60000000000

/-- Go `t.After(u)`: true iff `t` is strictly later than `u`. -/
def timeAfter (t u : Time) : Bool := u < t

/-- Per-chat configuration row (`config.Config`, columns of `chat_configs`
read by `Storage.GetChatConfig`). -/
structure Config where
  aiPrompt : String
  geminiModel : String
  telegramMessageTemplate : String
  postLimitPerRun : Int
  enableApprovalSystem : Bool
  approvalChatID : Int
  rssMaxAgeHours : Int
  languageCode : String
  scheduleIntervalMinutes : Int
  deriving DecidableEq

/-- News source (`news_fetcher.Source`).  The base fields are from
`fetcher.go`; the `chatID`, `destinationChatID` and `replyToMessageID`
fields are the extension populated by `Storage.GetNewsSourcesForChat`
(storage.go) and consumed by `sendArticleToChannel` (news.go). -/
structure Source where
  id : Int
  srcType : String
  url : String
  linkSelector : String
  topicID : Int
  topicName : String
  chatID : Int
  destinationChatID : Int
  replyToMessageID : Int
  deriving DecidableEq

/-- Topic row (`storage.Topic`). -/
structure Topic where
  id : Int
  name : String
  chatID : Int
  destinationChatID : Int
  replyToMessageID : Int
  deriving DecidableEq

/-- Pending moderation row (`storage.PendingArticle`, table
`pending_articles`). -/
structure PendingArticle where
  id : Int
  title : String
  summary : String
  link : String
  imageURL : String
  topicName : String
  sourceName : String
  createdAt : Time
  chatID : Int
  deriving DecidableEq

/-- Extracted article (`news_fetcher.Article`). -/
structure Article where
  title : String
  link : String
  description : String
  textContent : String
  imageURL : String
  publicationTime : Option Time
  deriving DecidableEq

/-- Discovered stub (`news_fetcher.DiscoveredArticle`). -/
structure DiscoveredArticle where
  link : String
  source : Source
  pubDate : Option Time
  deriving DecidableEq

/-- Row of `Storage.GetAllChatConfigs` (`storage.ConfigWithID`). -/
structure ConfigWithID where
  chatID : Int
  config : Config
  lastFetchedAt : Time
  deriving DecidableEq

/-- The persistent state owned by `storage.Storage`: the
`posted_articles` rows (pairs `(link, chat_id)`), the `pending_articles`
rows together with the AUTOINCREMENT counter for their ids, the
`topics` rows, and the `last_fetched_at` column of `chat_configs`. -/
structure StorageState where
  postedArticles : List (String × Int)
  pendingArticles : List PendingArticle
  nextPendingID : Int
  topics : List Topic
  lastFetchedAt : Int → Time

/-- `Storage.MarkAsPosted`: `INSERT OR IGNORE INTO posted_articles
(link, chat_id)` — inserting an existing pair is a no-op. -/
def MarkAsPosted (st : StorageState) (link : String) (chatID : Int) : StorageState :=
  if (link, chatID) ∈ st.postedArticles then st
  else { st with postedArticles := (link, chatID) :: st.postedArticles }

/-- `Storage.IsAlreadyPosted`: membership test on `posted_articles`. -/
def IsAlreadyPosted (st : StorageState) (link : String) (chatID : Int) : Bool :=
  decide ((link, chatID) ∈ st.postedArticles)

/-- `Storage.IsArticlePending`: `EXISTS(SELECT 1 FROM pending_articles
WHERE link = ? AND chat_id = ?)`. -/
def IsArticlePending (st : StorageState) (link : String) (chatID : Int) : Bool :=
  st.pendingArticles.any (fun a => a.link = link && a.chatID = chatID)

/-- `Storage.AddPendingArticle`: insert into `pending_articles`
(UNIQUE on `(chat_id, link)`; `id` AUTOINCREMENT; `created_at` defaults
to the current timestamp) and return the last-insert id.  A uniqueness
violation makes the INSERT fail, returning `none`. -/
def AddPendingArticle (st : StorageState) (chatID : Int) (article : PendingArticle)
    (now : Time) : Option (StorageState × Int) :=
  if st.pendingArticles.any (fun a => a.chatID = chatID && a.link = article.link) then none
  else
    let newID := st.nextPendingID
    some ({ st with
            pendingArticles :=
              st.pendingArticles ++ [{ article with id := newID, chatID := chatID, createdAt := now }],
            nextPendingID := newID + 1 }, newID)

/-- `Storage.GetPendingArticle`: `SELECT ... FROM pending_articles WHERE
id = ?`; `sql.ErrNoRows` becomes `none`. -/
def GetPendingArticle (st : StorageState) (id : Int) : Option PendingArticle :=
  st.pendingArticles.find? (fun a => a.id = id)

/-- `Storage.DeletePendingArticle`: `DELETE FROM pending_articles WHERE
id = ?`. -/
def DeletePendingArticle (st : StorageState) (id : Int) : StorageState :=
  { st with pendingArticles := st.pendingArticles.filter (fun a => a.id ≠ id) }

/-- `Storage.UpdatePendingArticleSummary`: `UPDATE pending_articles SET
summary = ? WHERE id = ?`. -/
def UpdatePendingArticleSummary (st : StorageState) (id : Int) (summary : String) : StorageState :=
  { st with pendingArticles :=
      st.pendingArticles.map (fun a => if a.id = id then { a with summary := summary } else a) }

/-- `Storage.UpdateLastFetchedTime`: `UPDATE chat_configs SET
last_fetched_at = ? WHERE chat_id = ?`. -/
def UpdateLastFetchedTime (st : StorageState) (chatID : Int) (t : Time) : StorageState :=
  { st with lastFetchedAt := fun c => if c = chatID then t else st.lastFetchedAt c }

/-- `Storage.GetTopicByName`: `SELECT ... FROM topics WHERE chat_id = ?
AND name = ?`; `sql.ErrNoRows` becomes `none`. -/
def GetTopicByName (st : StorageState) (chatID : Int) (name : String) : Option Topic :=
  st.topics.find? (fun t => t.chatID = chatID && t.name = name)

/-- `dispatchScheduledFetches` (news.go): for every row returned by
`GetAllChatConfigs`, compute `nextFetchTime = lastFetched +
scheduleIntervalMinutes * time.Minute` and trigger
`go fetchNewsForChat(ctx, chatID, false)` when `now.After(nextFetchTime)`.
The result is the list of chat ids for which a run is launched, in
enumeration order. -/
def dispatchScheduledFetches (allConfigs : List ConfigWithID) (now : Time) : List Int :=
  allConfigs.filterMap (fun c =>
    let nextFetchTime := c.lastFetchedAt + c.config.scheduleIntervalMinutes * minuteNs
    if timeAfter now nextFetchTime then some c.chatID else none)

/-- Outgoing side effects of the pipeline, in emission order.
`channelText`/`channelPhoto` are the public delivery sends of
`sendArticleToChannel`; `moderationMsg` is the moderation notification
of `sendArticleToModeration` (and of the edit flow), carrying the
inline-keyboard buttons as `(label, callbackData)` pairs; `editMessage`
is `tgbotapi.NewEditMessageText` (buttons `none` = keyboard removed);
`plainMsg` is a plain `tgbotapi.NewMessage` send; `deleteMsg` is
`tgbotapi.NewDeleteMessage`; `callbackAnswer` answers a callback query. -/
inductive RunEvent where
  | channelText (chatID : Int) (replyTo : Int) (caption : String)
  | channelPhoto (chatID : Int) (replyTo : Int) (imageURL : String) (caption : String)
  | moderationMsg (chatID : Int) (text : String) (buttons : List (String × String))
  | editMessage (chatID : Int) (messageID : Int) (text : String)
      (buttons : Option (List (String × String)))
  | plainMsg (chatID : Int) (text : String)
  | deleteMsg (chatID : Int) (messageID : Int)
  | callbackAnswer (text : String)
  deriving DecidableEq

/-- True exactly for the public delivery sends produced by
`sendArticleToChannel`. -/
def RunEvent.isChannelSend : RunEvent → Bool
  | .channelText _ _ _ => true
  | .channelPhoto _ _ _ _ => true
  | _ => false

/-- Oracles for the external collaborators.  Telegram send outcomes are
`true` on success; `scrape` returns the readability extraction for a
link (`ScrapeArticleDetails` fills `Link` from its argument, so only the
extracted fields are produced here); `summarize` is keyed by the
summarizer cache key `(model, prompt)` plus the article text and fails
with a non-cancellation error on `error` (cancellation errors are
produced solely by the cancelled context, see `fetchNewsForChat`). -/
structure Env where
  getChatConfig : Int → Except Unit Config
  getNewsSourcesForChat : Int → Except Unit (List Source)
  discoverArticles : List Source → Int → Except Unit (List DiscoveredArticle)
  scrape : String → Except Unit Article
  getSummarizerForChat : Config → Except Unit Unit
  summarize : String → String → String → Except Unit String
  photoSendOK : Int → String → String → Bool
  textSendOK : Int → String → Bool
  moderationSendOK : Int → String → Bool
  isChatAdmin : Int → Int → Bool
  langOf : Int → String

/-- Models `localization.Localizer.GetMessage`: the looked-up string is
determined by the language and the message key; the concrete table
contents are irrelevant to the pipeline, so the pair itself is used as
the rendering. -/
def GetMessage (lang key : String) : String := lang ++ "." ++ key

/-- Models Go `time.Time.Format layout`: an executable rendering of the
instant under a layout; calendar details are abstracted, the rendering
is determined by (layout, instant). -/
def goTimeFormat (layout : String) (t : Time) : String := layout ++ "|" ++ toString t

/-- Models `url.Parse(u).Hostname()`: the text between the `://` of a
recognized scheme and the next `/` or `:`; strings without an explicit
scheme parse as a bare path, whose host is empty. -/
def hostnameOf (u : String) : String :=
  let rest :=
    if "https://".isPrefixOf u then u.drop 8
    else if "http://".isPrefixOf u then u.drop 7
    else ""
  rest.takeWhile (fun c => c ≠ '/' && c ≠ ':')

/-- Go `strings.TrimPrefix s "www."`. -/
def trimWWW (s : String) : String := if "www.".isPrefixOf s then s.drop 4 else s

/-- Boolean prefix test on character lists (for the replacer). -/
def charsPrefix : List Char → List Char → Bool
  | [], _ => true
  | _ :: _, [] => false
  | a :: as, b :: bs => a = b && charsPrefix as bs

/-- One scan of Go `strings.NewReplacer(pairs...).Replace`: at each
position the first pattern (in argument order) matching there is
replaced, without overlapping matches; fuel is the remaining length. -/
def replaceChars (pairs : List (String × String)) : Nat → List Char → List Char
  | 0, cs => cs
  | _ + 1, [] => []
  | fuel + 1, c :: cs =>
    match pairs.find? (fun p => p.1.length ≠ 0 && charsPrefix p.1.data (c :: cs)) with
    | some p => p.2.data ++ replaceChars pairs fuel (List.drop (p.1.length - 1) cs)
    | none => c :: replaceChars pairs fuel cs

/-- Go `strings.NewReplacer(pairs...).Replace(s)`. -/
def stringsReplace (pairs : List (String × String)) (s : String) : String :=
  ⟨replaceChars pairs s.length s.data⟩

/-- The `publishDate` variable of `formatCaption`: "N/A" when the
article has no publication time, else the formatted publication time. -/
def publishDateStr : Option Time → String
  | none => "N/A"
  | some t => goTimeFormat "2 January 2006" t

/-- The `publishTime` variable of `formatCaption`. -/
def publishTimeStr : Option Time → String
  | none => "N/A"
  | some t => goTimeFormat "15:04 WIB" t

/-- `formatCaption` (news.go): substitute the placeholders of the
tenant's message template. -/
def formatCaption (article : Article) (summary : String) (source : Source)
    (chatCfg : Config) (now : Time) : String :=
  let topicName := if source.topicName = "" then "General" else source.topicName
  let sourceName := trimWWW (hostnameOf source.url)
  let currentDate := goTimeFormat "January 2, 2006" now
  stringsReplace
    [("{title}", article.title),
     ("{summary}", summary),
     ("{link}", article.link),
     ("{description}", article.description),
     ("{topic_name}", topicName),
     ("{source_name}", sourceName),
     ("{date}", currentDate),
     ("{publish_date}", publishDateStr article.publicationTime),
     ("{publish_time}", publishTimeStr article.publicationTime)]
    chatCfg.telegramMessageTemplate

/-- The destination resolution of `sendArticleToChannel`: the bound
topic's destination chat when set, else the tenant's own chat. -/
def resolveDestChat (source : Source) : Int :=
  if source.destinationChatID = 0 then source.chatID else source.destinationChatID

/-- `sendArticleToChannel` (news.go): resolve the destination chat,
then send the caption as a photo with the article image — falling back
to a plain text send with the same caption on photo failure — or
directly as text when the article has no image.  Returns the emitted
sends and `error` on ultimate failure. -/
def sendArticleToChannel (env : Env) (article : Article) (summary : String)
    (source : Source) (chatCfg : Config) (now : Time) :
    List RunEvent × Except Unit Unit :=
  let caption := formatCaption article summary source chatCfg now
  let chatID := resolveDestChat source
  let replyToID := source.replyToMessageID
  if article.imageURL = "" then
    if env.textSendOK chatID caption then
      ([.channelText chatID replyToID caption], .ok ())
    else
      ([.channelText chatID replyToID caption], .error ())
  else
    if env.photoSendOK chatID article.imageURL caption then
      ([.channelPhoto chatID replyToID article.imageURL caption], .ok ())
    else
      if env.textSendOK chatID caption then
        ([.channelPhoto chatID replyToID article.imageURL caption,
          .channelText chatID replyToID caption], .ok ())
      else
        ([.channelPhoto chatID replyToID article.imageURL caption,
          .channelText chatID replyToID caption], .error ())

/-- The inline keyboard of a moderation message: approve/edit/reject
buttons whose callback data binds the pending row id. -/
def moderationButtons (lang : String) (pendingID : Int) : List (String × String) :=
  [(GetMessage lang "btn_approve", "approve_article:" ++ toString pendingID),
   (GetMessage lang "btn_edit", "edit_article:" ++ toString pendingID),
   (GetMessage lang "btn_reject", "reject_article:" ++ toString pendingID)]

/-- `sendArticleToModeration` (news.go): persist a `PendingArticle` for
`(tenant, link)`, then send the moderation message (approval chat if
configured, else the tenant chat) with approve/edit/reject buttons
bound to the new pending id.  A failed insert or a failed send returns
`error`; a failed send does not roll the insert back. -/
def sendArticleToModeration (env : Env) (storage : StorageState) (article : Article)
    (summary : String) (source : Source) (chatCfg : Config) (now : Time) :
    StorageState × List RunEvent × Except Unit Unit :=
  let lang := env.langOf source.chatID
  let sourceName := trimWWW (hostnameOf source.url)
  let topicName := if source.topicName = "" then "General" else source.topicName
  let pendingArticle : PendingArticle :=
    { id := 0, chatID := source.chatID, title := article.title, summary := summary,
      link := article.link, imageURL := article.imageURL, topicName := topicName,
      sourceName := sourceName, createdAt := now }
  match AddPendingArticle storage source.chatID pendingArticle now with
  | none => (storage, [], .error ())
  | some (storage', pendingID) =>
    let approvalChatID := if chatCfg.approvalChatID = 0 then source.chatID else chatCfg.approvalChatID
    let caption := formatCaption article summary source chatCfg now
    let moderationText := GetMessage lang "approval_header" ++ "\n\n" ++ caption
    let ev := RunEvent.moderationMsg approvalChatID moderationText (moderationButtons lang pendingID)
    if env.moderationSendOK approvalChatID moderationText then
      (storage', [ev], .ok ())
    else
      (storage', [ev], .error ())

/-- Whether the run's context is cancelled at checkpoint `p`
(cancellation at instant `c` is permanent). -/
def canceledAt (cp : Option Nat) (p : Nat) : Bool :=
  match cp with
  | none => false
  | some c => c ≤ p

/-- Outcome of `summarizer.Summarize(ctx, text)`: the Go code
distinguishes `errors.Is(err, context.Canceled)` from other errors. -/
inductive SummarizeResult where
  | ok (summary : String)
  | canceled
  | failed
  deriving DecidableEq

/-- The summarization call for stub `i`: a cancelled context yields the
`context.Canceled` error (cancellation errors come exactly from the
cancelled context propagated into `GenerateContent`); otherwise the
summarizer oracle, keyed by the cache key `(model, prompt)` and the
article text, answers. -/
def summarizeCall (env : Env) (cp : Option Nat) (i : Nat) (chatCfg : Config)
    (text : String) : SummarizeResult :=
  if canceledAt cp (3 * i + 1) then .canceled
  else
    match env.summarize chatCfg.geminiModel chatCfg.aiPrompt text with
    | .ok s => .ok s
    | .error _ => .failed

/-- The per-stub loop of `fetchNewsForChat` (news.go).  For each stub in
discovery order: `select ctx.Done()` (return on cancellation), break on
the post ceiling, skip if already posted or pending, scrape (failures
mark the link posted and continue), build the summarizer (failures
continue), summarize (failures continue — the run's cancellation is
observed at the next loop head), then deliver to moderation or to the
channel (failures continue; channel success marks the link posted),
count the post and wait out the inter-article delay (return on
cancellation during the delay).  Returns the storage state, the emitted
events, and whether the loop exited through a cancellation `return`
(skipping the trailing `lastFetchedAt` update). -/
def processStubs (env : Env) (chatID : Int) (chatCfg : Config) (cp : Option Nat)
    (now : Time) :
    List DiscoveredArticle → Nat → Int → StorageState →
    StorageState × List RunEvent × Bool
  | [], _, _, storage => (storage, [], false)
  | stub :: rest, i, postedCount, storage =>
    if canceledAt cp (3 * i) then (storage, [], true)
    else if postedCount ≥ chatCfg.postLimitPerRun then (storage, [], false)
    else
      let posted := IsAlreadyPosted storage stub.link chatID
      let pending := IsArticlePending storage stub.link chatID
      if posted || pending then
        processStubs env chatID chatCfg cp now rest (i + 1) postedCount storage
      else
        match env.scrape stub.link with
        | .error _ =>
          let storage := MarkAsPosted storage stub.link chatID
          processStubs env chatID chatCfg cp now rest (i + 1) postedCount storage
        | .ok scraped =>
          let fullArticle := { scraped with link := stub.link, publicationTime := stub.pubDate }
          match env.getSummarizerForChat chatCfg with
          | .error _ =>
            processStubs env chatID chatCfg cp now rest (i + 1) postedCount storage
          | .ok _ =>
            match summarizeCall env cp i chatCfg fullArticle.textContent with
            | .canceled =>
              processStubs env chatID chatCfg cp now rest (i + 1) postedCount storage
            | .failed =>
              processStubs env chatID chatCfg cp now rest (i + 1) postedCount storage
            | .ok summary =>
              if chatCfg.enableApprovalSystem then
                match sendArticleToModeration env storage fullArticle summary stub.source chatCfg now with
                | (storage', evs, .error _) =>
                  let r := processStubs env chatID chatCfg cp now rest (i + 1) postedCount storage'
                  (r.1, evs ++ r.2.1, r.2.2)
                | (storage', evs, .ok _) =>
                  if canceledAt cp (3 * i + 2) then (storage', evs, true)
                  else
                    let r := processStubs env chatID chatCfg cp now rest (i + 1) (postedCount + 1) storage'
                    (r.1, evs ++ r.2.1, r.2.2)
              else
                match sendArticleToChannel env fullArticle summary stub.source chatCfg now with
                | (evs, .error _) =>
                  let r := processStubs env chatID chatCfg cp now rest (i + 1) postedCount storage
                  (r.1, evs ++ r.2.1, r.2.2)
                | (evs, .ok _) =>
                  let storage' := MarkAsPosted storage fullArticle.link chatID
                  if canceledAt cp (3 * i + 2) then (storage', evs, true)
                  else
                    let r := processStubs env chatID chatCfg cp now rest (i + 1) (postedCount + 1) storage'
                    (r.1, evs ++ r.2.1, r.2.2)

/-- The mutable bot state shared across runs: the storage plus the
tenant-keyed `isFetching` active-flag set guarded by `fetchingMutex`. -/
structure BotState where
  storage : StorageState
  isFetching : List Int

/-- The body of `fetchNewsForChat` after the guard has admitted the run:
load the tenant config and sources (aborting on error), take the
zero-sources early exit (which for scheduled runs persists `now` as
`lastFetchedAt`), discover stubs (aborting on error), run the per-stub
loop, and — unless the loop exited through a cancellation `return` —
persist `now` as `lastFetchedAt` for scheduled runs.  Returns the
storage state, the events, and whether the run observed cancellation. -/
def fetchRunBody (env : Env) (storage : StorageState) (chatID : Int) (manual : Bool)
    (now : Time) (cp : Option Nat) : StorageState × List RunEvent × Bool :=
  match env.getChatConfig chatID with
  | .error _ => (storage, [], false)
  | .ok chatCfg =>
    match env.getNewsSourcesForChat chatID with
    | .error _ => (storage, [], false)
    | .ok sources =>
      if sources.isEmpty then
        if manual then (storage, [], false)
        else (UpdateLastFetchedTime storage chatID now, [], false)
      else
        match env.discoverArticles sources chatCfg.rssMaxAgeHours with
        | .error _ => (storage, [], false)
        | .ok discoveredArticles =>
          match processStubs env chatID chatCfg cp now discoveredArticles 0 0 storage with
          | (storage', evs, true) => (storage', evs, true)
          | (storage', evs, false) =>
            if manual then (storage', evs, false)
            else (UpdateLastFetchedTime storage' chatID now, evs, false)

/-- `fetchNewsForChat` (news.go).  Guard: under `fetchingMutex`, a run
already active for `chatID` makes the invocation return immediately —
no pipeline work, no state change, no events.  Otherwise the tenant is
marked active, the body runs, and the deferred cleanup clears the
active flag and, for manual runs, notifies the requester that the run
finished (or was stopped, when the context was cancelled). -/
def fetchNewsForChat (env : Env) (st : BotState) (chatID : Int) (manual : Bool)
    (now : Time) (cp : Option Nat) : BotState × List RunEvent :=
  if st.isFetching.contains chatID then (st, [])
  else
    let (storage', evs, sawCancel) := fetchRunBody env st.storage chatID manual now cp
    let doneNote :=
      if manual then
        if sawCancel then
          [RunEvent.plainMsg chatID (GetMessage (env.langOf chatID) "fetch_stop_success")]
        else
          [RunEvent.plainMsg chatID (GetMessage (env.langOf chatID) "fetch_now_completed")]
      else []
    ({ storage := storage', isFetching := st.isFetching }, evs ++ doneNote)

/-- Models `fmt.Sprintf` with a single verb: the rendering is
determined by the format string and the argument. -/
def sprintf1 (format arg : String) : String := format ++ "[" ++ arg ++ "]"

/-- The parts of a `tgbotapi.CallbackQuery` the moderation handlers
read: the pressing user and the moderation message the buttons sit on. -/
structure CallbackInfo where
  fromUserID : Int
  fromFirstName : String
  chatID : Int
  messageID : Int
  messageText : String
  deriving DecidableEq

/-- The `articleToPost` rebuilt by `handleApproveArticle` from the
stored pending row: title, link and image come from the row, the
publication time is the row's `createdAt` (the original discovery
publish time is not persisted in the row), and the remaining fields are
zero values. -/
def approveArticleToPost (pendingArticle : PendingArticle) : Article :=
  { title := pendingArticle.title, link := pendingArticle.link,
    description := "", textContent := "", imageURL := pendingArticle.imageURL,
    publicationTime := some pendingArticle.createdAt }

/-- The `source` rebuilt by `handleApproveArticle`: the stored topic
name resolved through `GetTopicByName` for the destination binding
(zero destination when the topic no longer exists), the source URL
reconstituted from the stored hostname. -/
def approveSource (storage : StorageState) (pendingArticle : PendingArticle) : Source :=
  match GetTopicByName storage pendingArticle.chatID pendingArticle.topicName with
  | some t =>
    { id := 0, srcType := "", url := "https://" ++ pendingArticle.sourceName,
      linkSelector := "", topicID := 0, topicName := pendingArticle.topicName,
      chatID := pendingArticle.chatID, destinationChatID := t.destinationChatID,
      replyToMessageID := t.replyToMessageID }
  | none =>
    { id := 0, srcType := "", url := "https://" ++ pendingArticle.sourceName,
      linkSelector := "", topicID := 0, topicName := pendingArticle.topicName,
      chatID := pendingArticle.chatID, destinationChatID := 0,
      replyToMessageID := 0 }

/-- `handleApproveArticle` (handlers_callback.go): load the pending row
(a missing id is answered with a benign "already processed"
acknowledgment), check admin rights, load the tenant config, resolve
the bound topic, rebuild the article from the stored row — stamping its
publication time with the row's `createdAt` — and run the non-approval
delivery path with the stored summary and topic.  On delivery success,
mark `(link, tenant)` posted, delete the pending row, and strip the
buttons off the moderation message. -/
def handleApproveArticle (env : Env) (storage : StorageState) (cb : CallbackInfo)
    (articleID : Int) (now : Time) : StorageState × List RunEvent :=
  match GetPendingArticle storage articleID with
  | none => (storage, [.callbackAnswer "This article has already been processed."])
  | some pendingArticle =>
    let lang := env.langOf pendingArticle.chatID
    if !env.isChatAdmin pendingArticle.chatID cb.fromUserID then
      (storage, [.callbackAnswer (GetMessage lang "permission_denied")])
    else
      match env.getChatConfig pendingArticle.chatID with
      | .error _ => (storage, [])
      | .ok chatCfg =>
        let articleToPost := approveArticleToPost pendingArticle
        let source := approveSource storage pendingArticle
        match sendArticleToChannel env articleToPost pendingArticle.summary source chatCfg now with
        | (evs, .error _) => (storage, evs)
        | (evs, .ok _) =>
          let storage1 := MarkAsPosted storage pendingArticle.link pendingArticle.chatID
          let storage2 := DeletePendingArticle storage1 articleID
          let approvedText :=
            cb.messageText ++ "\n\n" ++
              sprintf1 (GetMessage lang "approval_action_approved") cb.fromFirstName
          (storage2, evs ++ [.editMessage cb.chatID cb.messageID approvedText none])

/-- `handleRejectArticle` (handlers_callback.go): load the pending row
(a missing id is answered benignly), check admin rights, mark
`(link, tenant)` posted to prevent rediscovery, delete the pending row,
and strip the buttons off the moderation message.  The delivery path is
never invoked. -/
def handleRejectArticle (env : Env) (storage : StorageState) (cb : CallbackInfo)
    (articleID : Int) : StorageState × List RunEvent :=
  match GetPendingArticle storage articleID with
  | none => (storage, [.callbackAnswer "This article has already been processed."])
  | some pendingArticle =>
    let lang := env.langOf pendingArticle.chatID
    if !env.isChatAdmin pendingArticle.chatID cb.fromUserID then
      (storage, [.callbackAnswer (GetMessage lang "permission_denied")])
    else
      let storage1 := MarkAsPosted storage pendingArticle.link pendingArticle.chatID
      let storage2 := DeletePendingArticle storage1 articleID
      let rejectedText :=
        cb.messageText ++ "\n\n" ++
          sprintf1 (GetMessage lang "approval_action_rejected") cb.fromFirstName
      (storage2, [.editMessage cb.chatID cb.messageID rejectedText none])

/-- The conversation state of an in-progress summary edit
(`bot.ConversationState`, fields used by `StateAwaitingArticleEdit`). -/
structure ConversationState where
  pendingArticleID : Int
  originalMessageID : Int
  originalChatID : Int
  originalMessageText : String
  deriving DecidableEq

/-- The `StateAwaitingArticleEdit` branch of `handleStatefulMessage`:
replace the stored summary in place, strip the buttons off the old
moderation message, reload the row, and regenerate the moderation
message — fresh approve/edit/reject buttons bound to the same pending
id — after deleting the editor's input message. -/
def handleStatefulArticleEdit (env : Env) (storage : StorageState)
    (state : ConversationState) (msgChatID msgMessageID : Int)
    (newSummary : String) (now : Time) : StorageState × List RunEvent :=
  let lang := env.langOf msgChatID
  let articleID := state.pendingArticleID
  let storage1 := UpdatePendingArticleSummary storage articleID newSummary
  let disableEvs :=
    if state.originalMessageID ≠ 0 then
      [RunEvent.editMessage state.originalChatID state.originalMessageID
        state.originalMessageText none]
    else []
  match GetPendingArticle storage1 articleID with
  | none =>
    (storage1, disableEvs ++
      [.plainMsg msgChatID "Could not process edit. The article may have already been approved or rejected."])
  | some pendingArticle =>
    match env.getChatConfig pendingArticle.chatID with
    | .error _ => (storage1, disableEvs)
    | .ok chatCfg =>
      let articleToFormat : Article :=
        { title := pendingArticle.title, link := pendingArticle.link, description := "",
          textContent := "", imageURL := "", publicationTime := none }
      let sourceToFormat : Source :=
        { id := 0, srcType := "", url := "https://" ++ pendingArticle.sourceName,
          linkSelector := "", topicID := 0, topicName := pendingArticle.topicName,
          chatID := 0, destinationChatID := 0, replyToMessageID := 0 }
      let newCaption := formatCaption articleToFormat newSummary sourceToFormat chatCfg now
      let moderationText := GetMessage lang "approval_header_edited" ++ "\n\n" ++ newCaption
      (storage1, disableEvs ++
        [.deleteMsg msgChatID msgMessageID,
         .moderationMsg msgChatID moderationText (moderationButtons lang articleID)])

/-! Concrete fixtures used by witnesses and counterexamples. -/

/-- A tenant config with the default schedule (60 minutes), approval
system off, an empty message template and post limit 5. -/
def cfgBase : Config :=
  { aiPrompt := "prompt", geminiModel := "model", telegramMessageTemplate := "",
    postLimitPerRun := 5, enableApprovalSystem := false, approvalChatID := 0,
    rssMaxAgeHours := 24, languageCode := "en", scheduleIntervalMinutes := 60 }

/-- A feed source of tenant 1. -/
def srcA : Source :=
  { id := 1, srcType := "rss", url := "https://www.example.com/feed", linkSelector := "",
    topicID := 0, topicName := "", chatID := 1, destinationChatID := 0, replyToMessageID := 0 }

/-- Empty storage. -/
def st0 : StorageState :=
  { postedArticles := [], pendingArticles := [], nextPendingID := 1, topics := [],
    lastFetchedAt := fun _ => 0 }

/-- A benign environment: everything configured, every external call
succeeds. -/
def env0 : Env :=
  { getChatConfig := fun _ => .ok cfgBase
    getNewsSourcesForChat := fun _ => .ok [srcA]
    discoverArticles := fun _ _ =>
      .ok [{ link := "https://www.example.com/a", source := srcA, pubDate := none },
           { link := "https://www.example.com/b", source := srcA, pubDate := none }]
    scrape := fun _ =>
      .ok { title := "t", link := "", description := "d", textContent := "x",
            imageURL := "", publicationTime := none }
    getSummarizerForChat := fun _ => .ok ()
    summarize := fun _ _ _ => .ok "s"
    photoSendOK := fun _ _ _ => true
    textSendOK := fun _ _ => true
    moderationSendOK := fun _ _ => true
    isChatAdmin := fun _ _ => true
    langOf := fun _ => "en" }

/-! The claims. -/

/-- C1: whenever a run is already active for a tenant, a second
invocation of the fetch coordinator — scheduled or manual — observes
the active flag under the mutex and returns immediately: the shared
state is untouched and no pipeline work (no event) is performed. -/
theorem claim_C1 (env : Env) (st : BotState) (chatID : Int) (manual : Bool)
    (now : Time) (cp : Option Nat) (h : st.isFetching.contains chatID = true) :
    fetchNewsForChat env st chatID manual now cp = (st, []) := by
  unfold fetchNewsForChat
  rw [h]
  simp

/-- Witness for C1: with a run active for tenant 5, both a scheduled and
a manual second invocation return the state unchanged with no events. -/
theorem claim_C1_witness :
    (BotState.mk st0 [5]).isFetching.contains 5 = true ∧
      fetchNewsForChat env0 (BotState.mk st0 [5]) 5 false 0 none = (BotState.mk st0 [5], []) ∧
      fetchNewsForChat env0 (BotState.mk st0 [5]) 5 true 0 none = (BotState.mk st0 [5], []) :=
  ⟨by decide,
   claim_C1 env0 (BotState.mk st0 [5]) 5 false 0 none (by decide),
   claim_C1 env0 (BotState.mk st0 [5]) 5 true 0 none (by decide)⟩

/-- C2 (amended): on a dispatcher tick, a tenant's fetch run is
launched if and only if `now` is strictly after
`lastFetchedAt + scheduleInterval` (Go `now.After(nextFetchTime)`), not
when `now` merely equals the due instant.  `hkey` states that the chat
id is the primary key of the enumerated rows. -/
theorem claim_C2 (allConfigs : List ConfigWithID) (now : Time) (c : ConfigWithID)
    (hmem : c ∈ allConfigs)
    (hkey : ∀ a ∈ allConfigs, a.chatID = c.chatID → a = c) :
    c.chatID ∈ dispatchScheduledFetches allConfigs now ↔
      c.lastFetchedAt + c.config.scheduleIntervalMinutes * minuteNs < now := by
  constructor
  · intro hmem2
    rcases List.mem_filterMap.mp hmem2 with ⟨a, hal, ha⟩
    by_cases hdue : timeAfter now (a.lastFetchedAt + a.config.scheduleIntervalMinutes * minuteNs) = true
    · have haeq : a = c := by
        apply hkey a hal
        simpa [hdue] using ha
      rw [haeq] at hdue
      simpa [timeAfter] using hdue
    · simp only [Bool.not_eq_true] at hdue
      simp [hdue] at ha
  · intro hdue
    refine List.mem_filterMap.mpr ⟨c, hmem, ?_⟩
    simp [timeAfter, hdue]

/-- Witness for C2: with a 60-minute interval, a tenant last fetched 61
minutes ago is launched and one last fetched 30 minutes ago is not. -/
theorem claim_C2_witness :
    (1 : Int) ∈ dispatchScheduledFetches
        [{ chatID := 1, config := cfgBase, lastFetchedAt := -61 * minuteNs }] 0 ∧
      (2 : Int) ∉ dispatchScheduledFetches
        [{ chatID := 2, config := cfgBase, lastFetchedAt := -30 * minuteNs }] 0 := by
  constructor
  · exact (claim_C2 [{ chatID := 1, config := cfgBase, lastFetchedAt := -61 * minuteNs }] 0
      { chatID := 1, config := cfgBase, lastFetchedAt := -61 * minuteNs }
      (by simp) (by simp)).mpr (by decide)
  · intro h
    exact absurd ((claim_C2 [{ chatID := 2, config := cfgBase, lastFetchedAt := -30 * minuteNs }] 0
      { chatID := 2, config := cfgBase, lastFetchedAt := -30 * minuteNs }
      (by simp) (by simp)).mp h) (by decide)

/-- Counterexample for C2 as stated: at `now = lastFetchedAt +
scheduleInterval` exactly (so `now ≥ due` holds), the dispatcher does
not launch a run, because the code requires `now` to be strictly after
the due instant. -/
theorem claim_C2_cex :
    (0 : Int) + 60 * minuteNs ≤ 60 * minuteNs ∧
      dispatchScheduledFetches
        [{ chatID := 7, config := cfgBase, lastFetchedAt := 0 }] (60 * minuteNs) = [] :=
  ⟨by decide, by decide⟩

/-- First discovered stub of `env0`. -/
def stubA : DiscoveredArticle := { link := "https://www.example.com/a", source := srcA, pubDate := none }

/-- Second discovered stub of `env0`. -/
def stubB : DiscoveredArticle := { link := "https://www.example.com/b", source := srcA, pubDate := none }

/-- A stub whose discovered link is empty. -/
def stubEmpty : DiscoveredArticle := { link := "", source := srcA, pubDate := none }

/-- Environment discovering only the empty-link stub, with extraction
failing on every link. -/
def envEmptyLink : Env :=
  { env0 with
    discoverArticles := fun _ _ => .ok [stubEmpty]
    scrape := fun _ => .error () }

/-- Tenant config with a per-run post ceiling of 1. -/
def cfgLimit1 : Config := { cfgBase with postLimitPerRun := 1 }

/-- Storage in which stub A's link is already a posted record of
tenant 1. -/
def stPostedA : StorageState := { st0 with postedArticles := [("https://www.example.com/a", 1)] }

/-- Counterexample for C3 as stated: a stub with an empty link is not
skipped.  The admission loop of `fetchNewsForChat` has no empty-link
check: the empty link is scraped like any other, and on extraction
failure it is even inserted into the posted records — a state mutation
a skip would never perform. -/
theorem claim_C3_cex :
    ((fetchNewsForChat envEmptyLink (BotState.mk st0 []) 1 false 0 none).1).storage.postedArticles
      = [("", 1)] := by
  decide

/-- C3 (amended): admission processes stubs strictly in discovery
order; a stub is skipped (with no state change) when `(link, tenant)`
is already a posted record or already has a pending article; the whole
batch stops once the per-run post ceiling is reached, the ceiling being
checked before each stub; there is no dedicated skip for empty links —
an empty link is treated like any other link.  With `postLimit = 1` and
two admissible stubs, exactly one article is processed and exactly one
delivery is sent. -/
theorem claim_C3 (env : Env) (chatID : Int) (chatCfg : Config) (cp : Option Nat)
    (now : Time) :
    (∀ stub rest i postedCount storage,
        canceledAt cp (3 * i) = false →
        chatCfg.postLimitPerRun ≤ postedCount →
        processStubs env chatID chatCfg cp now (stub :: rest) i postedCount storage
          = (storage, [], false))
    ∧ (∀ stub rest i postedCount storage,
        canceledAt cp (3 * i) = false →
        postedCount < chatCfg.postLimitPerRun →
        (IsAlreadyPosted storage stub.link chatID || IsArticlePending storage stub.link chatID) = true →
        processStubs env chatID chatCfg cp now (stub :: rest) i postedCount storage
          = processStubs env chatID chatCfg cp now rest (i + 1) postedCount storage)
    ∧ ((processStubs env0 1 cfgLimit1 none 0 [stubA, stubB] 0 0 st0).1).postedArticles
        = [("https://www.example.com/a", 1)]
    ∧ (((processStubs env0 1 cfgLimit1 none 0 [stubA, stubB] 0 0 st0).2.1).filter
        RunEvent.isChannelSend).length = 1 := by
  refine ⟨?_, ?_, by decide, by decide⟩
  · intro stub rest i postedCount storage h1 h2
    rw [processStubs]
    rw [h1]
    simp only [Bool.false_eq_true, if_false]
    rw [if_pos h2]
  · intro stub rest i postedCount storage h1 h2 h3
    rw [processStubs]
    rw [h1]
    simp only [Bool.false_eq_true, if_false]
    rw [if_neg (not_le.mpr h2)]
    rw [h3]
    simp

/-- Witness for C3: the ceiling part applied with the ceiling already
reached (post count 5, limit 5) stops the batch with no state change,
and the dedup part applied to a stub whose link is already posted skips
it. -/
theorem claim_C3_witness :
    processStubs env0 1 cfgBase none 0 [stubA] 0 5 st0 = (st0, [], false) ∧
      processStubs env0 1 cfgBase none 0 [stubA] 0 0 stPostedA
        = processStubs env0 1 cfgBase none 0 [] 1 0 stPostedA :=
  ⟨(claim_C3 env0 1 cfgBase none 0).1 stubA [] 0 5 st0 (by decide) (by decide),
   (claim_C3 env0 1 cfgBase none 0).2.1 stubA [] 0 0 stPostedA (by decide) (by decide) (by decide)⟩

/-- Marking a link posted does not touch `last_fetched_at`. -/
theorem MarkAsPosted_lastFetchedAt (st : StorageState) (link : String) (chatID : Int) :
    (MarkAsPosted st link chatID).lastFetchedAt = st.lastFetchedAt := by
  unfold MarkAsPosted
  split <;> rfl

/-- Inserting a pending article does not touch `last_fetched_at`. -/
theorem AddPendingArticle_lastFetchedAt (st : StorageState) (chatID : Int)
    (article : PendingArticle) (now : Time) (st' : StorageState) (id : Int)
    (h : AddPendingArticle st chatID article now = some (st', id)) :
    st'.lastFetchedAt = st.lastFetchedAt := by
  unfold AddPendingArticle at h
  split at h
  · exact absurd h (by simp)
  · rw [Option.some_inj] at h
    injection h with h1 h2
    subst h1
    rfl

/-- The moderation path does not touch `last_fetched_at`. -/
theorem sendArticleToModeration_lastFetchedAt (env : Env) (storage : StorageState)
    (article : Article) (summary : String) (source : Source) (chatCfg : Config)
    (now : Time) :
    ((sendArticleToModeration env storage article summary source chatCfg now).1).lastFetchedAt
      = storage.lastFetchedAt := by
  simp only [sendArticleToModeration]
  split
  · rfl
  · rename_i st' pendingID heq
    have h3 := AddPendingArticle_lastFetchedAt storage source.chatID _ now st' pendingID heq
    split <;> split <;> exact h3

/-- The per-stub loop never touches `last_fetched_at`: within the loop
the only storage writes are posted-record inserts and pending-article
inserts. -/
theorem processStubs_lastFetchedAt (env : Env) (chatID : Int) (chatCfg : Config)
    (cp : Option Nat) (now : Time) :
    ∀ (stubs : List DiscoveredArticle) (i : Nat) (postedCount : Int)
      (storage : StorageState),
      ((processStubs env chatID chatCfg cp now stubs i postedCount storage).1).lastFetchedAt
        = storage.lastFetchedAt := by
  intro stubs
  induction stubs with
  | nil => intro i pc storage; rfl
  | cons stub rest ih =>
    intro i pc storage
    simp only [processStubs]
    split
    · rfl
    · split
      · rfl
      · split
        · exact ih (i + 1) pc storage
        · split
          · show (processStubs env chatID chatCfg cp now rest (i + 1) pc
                (MarkAsPosted storage stub.link chatID)).1.lastFetchedAt = storage.lastFetchedAt
            rw [ih (i + 1) pc _]
            exact MarkAsPosted_lastFetchedAt storage stub.link chatID
          · split
            · exact ih (i + 1) pc storage
            · split
              · exact ih (i + 1) pc storage
              · exact ih (i + 1) pc storage
              · split
                · split
                  · rename_i storage' evs a heq
                    have h1 := congrArg (fun p => p.1.lastFetchedAt) heq
                    simp only at h1
                    show (processStubs env chatID chatCfg cp now rest (i + 1) pc storage').1.lastFetchedAt
                      = storage.lastFetchedAt
                    rw [ih (i + 1) pc storage', ← h1]
                    exact sendArticleToModeration_lastFetchedAt _ _ _ _ _ _ _
                  · rename_i storage' evs a heq
                    have h1 := congrArg (fun p => p.1.lastFetchedAt) heq
                    simp only at h1
                    split
                    · show storage'.lastFetchedAt = storage.lastFetchedAt
                      rw [← h1]
                      exact sendArticleToModeration_lastFetchedAt _ _ _ _ _ _ _
                    · show (processStubs env chatID chatCfg cp now rest (i + 1) (pc + 1) storage').1.lastFetchedAt
                        = storage.lastFetchedAt
                      rw [ih (i + 1) (pc + 1) storage', ← h1]
                      exact sendArticleToModeration_lastFetchedAt _ _ _ _ _ _ _
                · split
                  · exact ih (i + 1) pc storage
                  · split
                    · exact MarkAsPosted_lastFetchedAt storage _ chatID
                    · show (processStubs env chatID chatCfg cp now rest (i + 1) (pc + 1)
                          (MarkAsPosted storage _ chatID)).1.lastFetchedAt = storage.lastFetchedAt
                      rw [ih (i + 1) (pc + 1) _]
                      exact MarkAsPosted_lastFetchedAt storage _ chatID

/-- A manual run never touches `last_fetched_at`: both `lastFetchedAt`
updates in `fetchNewsForChat` are guarded by `if !manual`. -/
theorem fetchRunBody_manual_lastFetchedAt (env : Env) (storage : StorageState)
    (chatID : Int) (now : Time) (cp : Option Nat) :
    ((fetchRunBody env storage chatID true now cp).1).lastFetchedAt = storage.lastFetchedAt := by
  simp only [fetchRunBody]
  split
  · rfl
  · split
    · rfl
    · split
      · rfl
      · split
        · rfl
        · split
          · rename_i storage' evs heq
            have h1 := congrArg (fun p => p.1.lastFetchedAt) heq
            simp only at h1
            rw [← h1]
            exact processStubs_lastFetchedAt env chatID _ cp now _ 0 0 storage
          · rename_i storage' evs heq
            have h1 := congrArg (fun p => p.1.lastFetchedAt) heq
            simp only at h1
            rw [if_pos trivial]
            rw [← h1]
            exact processStubs_lastFetchedAt env chatID _ cp now _ 0 0 storage

/-- Environment in which loading the tenant config fails. -/
def envCfgFail : Env := { env0 with getChatConfig := fun _ => .error () }

/-- Environment in which the tenant has no sources configured. -/
def envNoSources : Env := { env0 with getNewsSourcesForChat := fun _ => .ok [] }

/-- Counterexample for C4 as stated: a scheduled run that terminates
early because the tenant config fails to load does **not** persist the
current time (100) as `lastFetchedAt` — it stays at its old value 0.
The updates are inline on the zero-sources exit and after the loop, not
in the deferred cleanup, so not every early termination advances the
schedule. -/
theorem claim_C4_cex :
    ((fetchNewsForChat envCfgFail (BotState.mk st0 []) 1 false 100 none).1).storage.lastFetchedAt 1 = 0
      ∧ (0 : Int) ≠ 100 :=
  ⟨by decide, by decide⟩

/-- C4 (amended): a manual run never updates `lastFetchedAt`; a
scheduled run persists `now` as the tenant's `lastFetchedAt` exactly
when it reaches the zero-sources early exit or falls out of the
per-stub loop without observing cancellation (in particular when every
source fails, since discovery absorbs per-source failures) — but not
when config or source loading or discovery fails, nor when the run is
cancelled mid-loop. -/
theorem claim_C4 (env : Env) (st : BotState) (chatID : Int) (now : Time) (cp : Option Nat) :
    (((fetchNewsForChat env st chatID true now cp).1).storage.lastFetchedAt
        = st.storage.lastFetchedAt)
    ∧ (∀ cfg,
        st.isFetching.contains chatID = false →
        env.getChatConfig chatID = .ok cfg →
        env.getNewsSourcesForChat chatID = .ok [] →
        ((fetchNewsForChat env st chatID false now cp).1).storage.lastFetchedAt chatID = now)
    ∧ (∀ cfg sources stubs,
        st.isFetching.contains chatID = false →
        env.getChatConfig chatID = .ok cfg →
        env.getNewsSourcesForChat chatID = .ok sources →
        sources ≠ [] →
        env.discoverArticles sources cfg.rssMaxAgeHours = .ok stubs →
        (processStubs env chatID cfg cp now stubs 0 0 st.storage).2.2 = false →
        ((fetchNewsForChat env st chatID false now cp).1).storage.lastFetchedAt chatID = now) := by
  refine ⟨?_, ?_, ?_⟩
  · simp only [fetchNewsForChat]
    split
    · rfl
    · simp only
      exact fetchRunBody_manual_lastFetchedAt env st.storage chatID now cp
  · intro cfg hguard hcfg hsrc
    have hb : fetchRunBody env st.storage chatID false now cp
        = (UpdateLastFetchedTime st.storage chatID now, [], false) := by
      simp [fetchRunBody, hcfg, hsrc]
    simp only [fetchNewsForChat, hguard, Bool.false_eq_true, if_false, hb]
    simp [UpdateLastFetchedTime]
  · intro cfg sources stubs hguard hcfg hsrc hne hdisc hloop
    rcases hps : processStubs env chatID cfg cp now stubs 0 0 st.storage with ⟨storage', evs, flag⟩
    have hflag : flag = false := by
      have := congrArg (fun r => r.2.2) hps
      simp only at this
      rw [← this]
      exact hloop
    subst hflag
    have hb : fetchRunBody env st.storage chatID false now cp
        = (UpdateLastFetchedTime storage' chatID now, evs, false) := by
      simp only [fetchRunBody, hcfg, hsrc, hdisc]
      rw [if_neg (by simpa [List.isEmpty_iff] using hne)]
      rw [hps]
      rfl
    simp only [fetchNewsForChat, hguard, Bool.false_eq_true, if_false, hb]
    simp [UpdateLastFetchedTime]

/-- Witness for C4: a scheduled run for tenant 1 with zero sources
configured persists `now = 777` as the tenant's `lastFetchedAt`. -/
theorem claim_C4_witness :
    ((fetchNewsForChat envNoSources (BotState.mk st0 []) 1 false 777 none).1).storage.lastFetchedAt 1
      = 777 :=
  (claim_C4 envNoSources (BotState.mk st0 []) 1 777 none).2.1 cfgBase (by decide) rfl rfl

/-- A pending moderation row of tenant 1. -/
def paFix : PendingArticle :=
  { id := 10, title := "T", summary := "S", link := "https://www.example.com/a",
    imageURL := "", topicName := "", sourceName := "example.com", createdAt := 50, chatID := 1 }

/-- Storage holding exactly the pending row `paFix`. -/
def stPending : StorageState := { st0 with pendingArticles := [paFix], nextPendingID := 11 }

/-- A callback press on the moderation message of `paFix`. -/
def cbFix : CallbackInfo :=
  { fromUserID := 2, fromFirstName := "Ann", chatID := 1, messageID := 3, messageText := "orig" }

/-- C5: approving an existing pending article runs the non-approval
delivery path with the article rebuilt from the stored row, the stored
summary and the stored topic, and afterwards the storage has exactly
one new posted record `(link, tenant)` (prepended to the previous ones)
and zero remaining pending rows with that id. -/
theorem claim_C5 (env : Env) (storage : StorageState) (cb : CallbackInfo)
    (articleID : Int) (now : Time) (pa : PendingArticle) (cfg : Config)
    (hpa : GetPendingArticle storage articleID = some pa)
    (hadmin : env.isChatAdmin pa.chatID cb.fromUserID = true)
    (hcfg : env.getChatConfig pa.chatID = .ok cfg)
    (hposted : (pa.link, pa.chatID) ∉ storage.postedArticles)
    (hsend : (sendArticleToChannel env (approveArticleToPost pa) pa.summary
        (approveSource storage pa) cfg now).2 = .ok ()) :
    ((handleApproveArticle env storage cb articleID now).1).postedArticles
        = (pa.link, pa.chatID) :: storage.postedArticles
    ∧ (∀ a ∈ ((handleApproveArticle env storage cb articleID now).1).pendingArticles,
        a.id ≠ articleID)
    ∧ (∃ t, (handleApproveArticle env storage cb articleID now).2
        = (sendArticleToChannel env (approveArticleToPost pa) pa.summary
            (approveSource storage pa) cfg now).1
          ++ [RunEvent.editMessage cb.chatID cb.messageID t none]) := by
  rcases hs : sendArticleToChannel env (approveArticleToPost pa) pa.summary
      (approveSource storage pa) cfg now with ⟨evs, res⟩
  have hres : res = .ok () := by
    have h2 := congrArg (fun p => p.2) hs
    simp only at h2
    rw [h2] at hsend
    exact hsend
  subst hres
  have happ : handleApproveArticle env storage cb articleID now
      = (DeletePendingArticle (MarkAsPosted storage pa.link pa.chatID) articleID,
         evs ++ [RunEvent.editMessage cb.chatID cb.messageID
           (cb.messageText ++ "\n\n" ++
             sprintf1 (GetMessage (env.langOf pa.chatID) "approval_action_approved")
               cb.fromFirstName) none]) := by
    simp [handleApproveArticle, hpa, hadmin, hcfg, hs]
  refine ⟨?_, ?_, ?_⟩
  · rw [happ]
    simp [DeletePendingArticle, MarkAsPosted, hposted]
  · rw [happ]
    intro a ha
    simp only [DeletePendingArticle, List.mem_filter] at ha
    simpa using ha.2
  · refine ⟨cb.messageText ++ "\n\n" ++
      sprintf1 (GetMessage (env.langOf pa.chatID) "approval_action_approved")
        cb.fromFirstName, ?_⟩
    rw [happ]

/-- Witness for C5: approving the pending row `paFix` in `stPending`
yields exactly the posted record of its link for tenant 1, no remaining
pending row with id 10, and the delivery events followed by the button
strip. -/
theorem claim_C5_witness :
    ((handleApproveArticle env0 stPending cbFix 10 77).1).postedArticles
        = (paFix.link, paFix.chatID) :: stPending.postedArticles
    ∧ (∀ a ∈ ((handleApproveArticle env0 stPending cbFix 10 77).1).pendingArticles,
        a.id ≠ 10)
    ∧ (∃ t, (handleApproveArticle env0 stPending cbFix 10 77).2
        = (sendArticleToChannel env0 (approveArticleToPost paFix) paFix.summary
            (approveSource stPending paFix) cfgBase 77).1
          ++ [RunEvent.editMessage cbFix.chatID cbFix.messageID t none]) :=
  claim_C5 env0 stPending cbFix 10 77 paFix cfgBase (by decide) (by decide) rfl
    (by decide) rfl

/-- C6: rejecting an existing pending article inserts exactly one new
posted record `(link, tenant)` and deletes the pending row, and the
public delivery path is never invoked — no channel send appears among
the emitted events. -/
theorem claim_C6 (env : Env) (storage : StorageState) (cb : CallbackInfo)
    (articleID : Int) (pa : PendingArticle)
    (hpa : GetPendingArticle storage articleID = some pa)
    (hadmin : env.isChatAdmin pa.chatID cb.fromUserID = true)
    (hposted : (pa.link, pa.chatID) ∉ storage.postedArticles) :
    ((handleRejectArticle env storage cb articleID).1).postedArticles
        = (pa.link, pa.chatID) :: storage.postedArticles
    ∧ (∀ a ∈ ((handleRejectArticle env storage cb articleID).1).pendingArticles,
        a.id ≠ articleID)
    ∧ (∀ e ∈ (handleRejectArticle env storage cb articleID).2,
        e.isChannelSend = false) := by
  have happ : handleRejectArticle env storage cb articleID
      = (DeletePendingArticle (MarkAsPosted storage pa.link pa.chatID) articleID,
         [RunEvent.editMessage cb.chatID cb.messageID
           (cb.messageText ++ "\n\n" ++
             sprintf1 (GetMessage (env.langOf pa.chatID) "approval_action_rejected")
               cb.fromFirstName) none]) := by
    simp [handleRejectArticle, hpa, hadmin]
  refine ⟨?_, ?_, ?_⟩
  · rw [happ]
    simp [DeletePendingArticle, MarkAsPosted, hposted]
  · rw [happ]
    intro a ha
    simp only [DeletePendingArticle, List.mem_filter] at ha
    simpa using ha.2
  · rw [happ]
    intro e he
    simp only [List.mem_singleton] at he
    subst he
    rfl

/-- Witness for C6: rejecting the pending row `paFix` in `stPending`
yields exactly the posted record of its link, no remaining pending row
with id 10, and no channel send. -/
theorem claim_C6_witness :
    ((handleRejectArticle env0 stPending cbFix 10).1).postedArticles
        = (paFix.link, paFix.chatID) :: stPending.postedArticles
    ∧ (∀ a ∈ ((handleRejectArticle env0 stPending cbFix 10).1).pendingArticles,
        a.id ≠ 10)
    ∧ (∀ e ∈ (handleRejectArticle env0 stPending cbFix 10).2,
        e.isChannelSend = false) :=
  claim_C6 env0 stPending cbFix 10 paFix (by decide) (by decide) (by decide)

/-- A cancelled summarization call means the run's context was
cancelled by the summarize checkpoint. -/
theorem summarizeCall_canceled (env : Env) (cp : Option Nat) (i : Nat)
    (chatCfg : Config) (text : String)
    (h : summarizeCall env cp i chatCfg text = .canceled) :
    canceledAt cp (3 * i + 1) = true := by
  by_cases hb : canceledAt cp (3 * i + 1) = true
  · exact hb
  · exfalso
    simp only [Bool.not_eq_true] at hb
    unfold summarizeCall at h
    rw [hb] at h
    simp only [Bool.false_eq_true, if_false] at h
    split at h <;> cases h

/-- Cancellation is permanent: cancelled by the summarize checkpoint of
stub `i` implies cancelled at the loop head of stub `i + 1`. -/
theorem canceledAt_next (cp : Option Nat) (i : Nat)
    (h : canceledAt cp (3 * i + 1) = true) :
    canceledAt cp (3 * (i + 1)) = true := by
  cases cp with
  | none => simp [canceledAt] at h
  | some c =>
    simp only [canceledAt, decide_eq_true_eq] at h ⊢
    omega

/-- C7: when the summarization of an admissible stub fails with a
non-cancellation error, the stub is skipped with no storage change — in
particular it is not marked posted, so it stays admissible for the next
cycle; when the failure is cancellation, the whole run terminates: no
further event is emitted, the storage is unchanged from the loop entry,
and the stub's link is never inserted into the posted records. -/
theorem claim_C7 (env : Env) (chatID : Int) (chatCfg : Config) (cp : Option Nat)
    (now : Time) (stub : DiscoveredArticle) (rest : List DiscoveredArticle)
    (i : Nat) (postedCount : Int) (storage : StorageState) (scraped : Article)
    (h1 : canceledAt cp (3 * i) = false)
    (h2 : postedCount < chatCfg.postLimitPerRun)
    (h3 : IsAlreadyPosted storage stub.link chatID = false)
    (h4 : IsArticlePending storage stub.link chatID = false)
    (h5 : env.scrape stub.link = .ok scraped)
    (h6 : env.getSummarizerForChat chatCfg = .ok ()) :
    (summarizeCall env cp i chatCfg scraped.textContent = .failed →
        processStubs env chatID chatCfg cp now (stub :: rest) i postedCount storage
          = processStubs env chatID chatCfg cp now rest (i + 1) postedCount storage)
    ∧ (summarizeCall env cp i chatCfg scraped.textContent = .canceled →
        (processStubs env chatID chatCfg cp now (stub :: rest) i postedCount storage).1
            = storage
        ∧ (processStubs env chatID chatCfg cp now (stub :: rest) i postedCount storage).2.1
            = []
        ∧ IsAlreadyPosted
            (processStubs env chatID chatCfg cp now (stub :: rest) i postedCount storage).1
            stub.link chatID = false) := by
  have h2' : ¬ postedCount ≥ chatCfg.postLimitPerRun := not_le.mpr h2
  constructor
  · intro hf
    simp [processStubs, h1, h2', h3, h4, h5, h6, hf]
  · intro hc
    have hnext := canceledAt_next cp i (summarizeCall_canceled env cp i chatCfg _ hc)
    have hred : processStubs env chatID chatCfg cp now (stub :: rest) i postedCount storage
        = processStubs env chatID chatCfg cp now rest (i + 1) postedCount storage := by
      simp [processStubs, h1, h2', h3, h4, h5, h6, hc]
    rw [hred]
    cases rest with
    | nil => exact ⟨rfl, rfl, h3⟩
    | cons s t =>
      rw [processStubs, hnext]
      exact ⟨rfl, rfl, h3⟩

/-- Environment in which tenant 1's summarizer always reports a
(non-cancellation) failure. -/
def envSumFail : Env := { env0 with summarize := fun _ _ _ => .error () }

/-- Witness for C7: with a failing summarizer the first stub is skipped
leaving the storage untouched, and with the context cancelled between
the loop head and the summarize call (cancellation instant 1) the run
ends with no event, untouched storage, and the link never posted. -/
theorem claim_C7_witness :
    (processStubs envSumFail 1 cfgBase none 0 [stubA] 0 0 st0
        = processStubs envSumFail 1 cfgBase none 0 [] 1 0 st0)
    ∧ ((processStubs env0 1 cfgBase (some 1) 0 [stubA, stubB] 0 0 st0).1 = st0
        ∧ (processStubs env0 1 cfgBase (some 1) 0 [stubA, stubB] 0 0 st0).2.1 = []
        ∧ IsAlreadyPosted (processStubs env0 1 cfgBase (some 1) 0 [stubA, stubB] 0 0 st0).1
            stubA.link 1 = false) :=
  ⟨(claim_C7 envSumFail 1 cfgBase none 0 stubA [] 0 0 st0
      { title := "t", link := "", description := "d", textContent := "x",
        imageURL := "", publicationTime := none }
      (by decide) (by decide) (by decide) (by decide) rfl rfl).1 (by decide),
   (claim_C7 env0 1 cfgBase (some 1) 0 stubA [stubB] 0 0 st0
      { title := "t", link := "", description := "d", textContent := "x",
        imageURL := "", publicationTime := none }
      (by decide) (by decide) (by decide) (by decide) rfl rfl).2 (by decide)⟩

/-- C8: in the non-approval delivery path, an article with a non-empty
image URL is first sent as a photo with caption; if that fails, a plain
text message carrying the identical caption is sent as fallback, and
the overall result is the outcome of that fallback.  When the fallback
— or the text send for an image-less article — also fails, `error` is
returned to the caller, and in the fetch loop a delivery error leaves
the storage unchanged (the article is not marked posted), so it is
retried on a later cycle. -/
theorem claim_C8 (env : Env) (now : Time) :
    (∀ article summary source chatCfg, article.imageURL ≠ "" →
        env.photoSendOK (resolveDestChat source) article.imageURL
            (formatCaption article summary source chatCfg now) = false →
        sendArticleToChannel env article summary source chatCfg now
          = ([.channelPhoto (resolveDestChat source) source.replyToMessageID article.imageURL
                (formatCaption article summary source chatCfg now),
              .channelText (resolveDestChat source) source.replyToMessageID
                (formatCaption article summary source chatCfg now)],
             if env.textSendOK (resolveDestChat source)
                 (formatCaption article summary source chatCfg now) = true
             then .ok () else .error ()))
    ∧ (∀ article summary source chatCfg, article.imageURL = "" →
        env.textSendOK (resolveDestChat source)
            (formatCaption article summary source chatCfg now) = false →
        sendArticleToChannel env article summary source chatCfg now
          = ([.channelText (resolveDestChat source) source.replyToMessageID
                (formatCaption article summary source chatCfg now)], .error ()))
    ∧ (∀ chatID chatCfg cp stub rest i postedCount storage scraped summary,
        canceledAt cp (3 * i) = false →
        postedCount < chatCfg.postLimitPerRun →
        IsAlreadyPosted storage stub.link chatID = false →
        IsArticlePending storage stub.link chatID = false →
        env.scrape stub.link = Except.ok scraped →
        env.getSummarizerForChat chatCfg = .ok () →
        chatCfg.enableApprovalSystem = false →
        summarizeCall env cp i chatCfg scraped.textContent = .ok summary →
        (sendArticleToChannel env
            { scraped with link := stub.link, publicationTime := stub.pubDate }
            summary stub.source chatCfg now).2 = .error () →
        processStubs env chatID chatCfg cp now (stub :: rest) i postedCount storage
          = ((processStubs env chatID chatCfg cp now rest (i + 1) postedCount storage).1,
             (sendArticleToChannel env
                { scraped with link := stub.link, publicationTime := stub.pubDate }
                summary stub.source chatCfg now).1
               ++ (processStubs env chatID chatCfg cp now rest (i + 1) postedCount storage).2.1,
             (processStubs env chatID chatCfg cp now rest (i + 1) postedCount storage).2.2)) := by
  refine ⟨?_, ?_, ?_⟩
  · intro article summary source chatCfg himg hphoto
    simp only [sendArticleToChannel]
    rw [if_neg himg, hphoto]
    by_cases ht : env.textSendOK (resolveDestChat source)
        (formatCaption article summary source chatCfg now) = true
    · simp [ht]
    · simp [ht]
  · intro article summary source chatCfg himg htext
    simp only [sendArticleToChannel]
    rw [if_pos himg, htext]
    simp
  · intro chatID chatCfg cp stub rest i postedCount storage scraped summary
      h1 h2 h3 h4 h5 h6 h7 hok hsend
    have h2' : ¬ postedCount ≥ chatCfg.postLimitPerRun := not_le.mpr h2
    rcases hs : sendArticleToChannel env
        { scraped with link := stub.link, publicationTime := stub.pubDate }
        summary stub.source chatCfg now with ⟨evs, res⟩
    have hres : res = .error () := by
      have hcast := congrArg (fun p => p.2) hs
      simp only at hcast
      rw [hcast] at hsend
      exact hsend
    subst hres
    simp [processStubs, h1, h2', h3, h4, h5, h6, h7, hok, hs]

/-- Environment in which every photo send fails. -/
def envPhotoFail : Env := { env0 with photoSendOK := fun _ _ _ => false }

/-- An article carrying an image URL. -/
def artImg : Article :=
  { title := "t", link := "l", description := "", textContent := "",
    imageURL := "img", publicationTime := none }

/-- Witness for C8: with the photo send failing, delivery of an image
article attempts the photo first and then a text fallback carrying the
identical caption. -/
theorem claim_C8_witness :
    artImg.imageURL ≠ "" ∧
      sendArticleToChannel envPhotoFail artImg "sum" srcA cfgBase 0
        = ([.channelPhoto (resolveDestChat srcA) srcA.replyToMessageID artImg.imageURL
              (formatCaption artImg "sum" srcA cfgBase 0),
            .channelText (resolveDestChat srcA) srcA.replyToMessageID
              (formatCaption artImg "sum" srcA cfgBase 0)],
           if envPhotoFail.textSendOK (resolveDestChat srcA)
               (formatCaption artImg "sum" srcA cfgBase 0) = true
           then .ok () else .error ()) :=
  ⟨by decide, (claim_C8 envPhotoFail 0).1 artImg "sum" srcA cfgBase (by decide) rfl⟩

/-- Updating the summary of row `id` turns the row returned by
`GetPendingArticle id` into the same row with only the summary
replaced. -/
theorem GetPendingArticle_UpdateSummary (st : StorageState) (id : Int) (s : String) :
    GetPendingArticle (UpdatePendingArticleSummary st id s) id
      = (GetPendingArticle st id).map (fun a => { a with summary := s }) := by
  unfold GetPendingArticle UpdatePendingArticleSummary
  simp only
  induction st.pendingArticles with
  | nil => rfl
  | cons a l ih =>
    by_cases h : a.id = id
    · simp [List.find?_cons, h]
    · simp only [List.map_cons, List.find?_cons, if_neg h]
      have hd : (decide (a.id = id)) = false := decide_eq_false h
      rw [hd]
      exact ih

/-- C9: editing an existing pending article preserves the row's id,
link and every field other than the summary, replaces only the summary
in place — leaving posted records, topics, `lastFetchedAt` and all
other pending rows untouched — and regenerates the moderation message
whose approve/edit/reject buttons are bound to the same pending id. -/
theorem claim_C9 (env : Env) (storage : StorageState) (state : ConversationState)
    (msgChatID msgMessageID : Int) (newSummary : String) (now : Time)
    (pa : PendingArticle) (cfg : Config)
    (hpa : GetPendingArticle storage state.pendingArticleID = some pa)
    (hcfg : env.getChatConfig pa.chatID = .ok cfg) :
    GetPendingArticle
        ((handleStatefulArticleEdit env storage state msgChatID msgMessageID newSummary now).1)
        state.pendingArticleID
      = some { pa with summary := newSummary }
    ∧ ((handleStatefulArticleEdit env storage state msgChatID msgMessageID newSummary now).1).postedArticles
        = storage.postedArticles
    ∧ ((handleStatefulArticleEdit env storage state msgChatID msgMessageID newSummary now).1).topics
        = storage.topics
    ∧ ((handleStatefulArticleEdit env storage state msgChatID msgMessageID newSummary now).1).lastFetchedAt
        = storage.lastFetchedAt
    ∧ ((handleStatefulArticleEdit env storage state msgChatID msgMessageID newSummary now).1).pendingArticles.length
        = storage.pendingArticles.length
    ∧ (∀ a ∈ storage.pendingArticles, a.id ≠ state.pendingArticleID →
        a ∈ ((handleStatefulArticleEdit env storage state msgChatID msgMessageID newSummary now).1).pendingArticles)
    ∧ (∃ text, RunEvent.moderationMsg msgChatID text
          (moderationButtons (env.langOf msgChatID) state.pendingArticleID)
        ∈ (handleStatefulArticleEdit env storage state msgChatID msgMessageID newSummary now).2) := by
  have hg : GetPendingArticle (UpdatePendingArticleSummary storage state.pendingArticleID newSummary)
      state.pendingArticleID = some { pa with summary := newSummary } := by
    rw [GetPendingArticle_UpdateSummary, hpa]
    rfl
  have hst : (handleStatefulArticleEdit env storage state msgChatID msgMessageID newSummary now).1
      = UpdatePendingArticleSummary storage state.pendingArticleID newSummary := by
    simp only [handleStatefulArticleEdit, hg]
    rw [show ({ pa with summary := newSummary } : PendingArticle).chatID = pa.chatID from rfl, hcfg]
  refine ⟨?_, ?_, ?_, ?_, ?_, ?_, ?_⟩
  · rw [hst]
    exact hg
  · rw [hst]; rfl
  · rw [hst]; rfl
  · rw [hst]; rfl
  · rw [hst]
    simp [UpdatePendingArticleSummary]
  · intro a ha hne
    rw [hst]
    simp only [UpdatePendingArticleSummary, List.mem_map]
    exact ⟨a, ha, by rw [if_neg hne]⟩
  · refine ⟨GetMessage (env.langOf msgChatID) "approval_header_edited" ++ "\n\n" ++
      formatCaption
        { title := ({ pa with summary := newSummary } : PendingArticle).title,
          link := ({ pa with summary := newSummary } : PendingArticle).link,
          description := "", textContent := "", imageURL := "", publicationTime := none }
        newSummary
        { id := 0, srcType := "",
          url := "https://" ++ ({ pa with summary := newSummary } : PendingArticle).sourceName,
          linkSelector := "", topicID := 0,
          topicName := ({ pa with summary := newSummary } : PendingArticle).topicName,
          chatID := 0, destinationChatID := 0, replyToMessageID := 0 }
        cfg now, ?_⟩
    simp only [handleStatefulArticleEdit, hg]
    rw [show ({ pa with summary := newSummary } : PendingArticle).chatID = pa.chatID from rfl, hcfg]
    simp

/-- The conversation state of an edit of the pending row `paFix`. -/
def stateFix : ConversationState :=
  { pendingArticleID := 10, originalMessageID := 3, originalChatID := 1,
    originalMessageText := "orig" }

/-- Witness for C9: editing `paFix` in `stPending` replaces exactly the
summary and regenerates the moderation message bound to pending id
10. -/
theorem claim_C9_witness :
    GetPendingArticle ((handleStatefulArticleEdit env0 stPending stateFix 1 4 "S2" 60).1) 10
        = some { paFix with summary := "S2" }
    ∧ ((handleStatefulArticleEdit env0 stPending stateFix 1 4 "S2" 60).1).postedArticles
        = stPending.postedArticles
    ∧ ((handleStatefulArticleEdit env0 stPending stateFix 1 4 "S2" 60).1).pendingArticles.length
        = stPending.pendingArticles.length
    ∧ (∃ text, RunEvent.moderationMsg 1 text (moderationButtons (env0.langOf 1) 10)
        ∈ (handleStatefulArticleEdit env0 stPending stateFix 1 4 "S2" 60).2) :=
  (fun h => ⟨h.1, h.2.1, h.2.2.2.2.1, h.2.2.2.2.2.2⟩)
    (claim_C9 env0 stPending stateFix 1 4 "S2" 60 paFix cfgBase (by decide) rfl)

/-- Every send emitted by the non-approval delivery path is either the
photo-with-caption attempt or the text send, both carrying the caption
built from the delivered article. -/
theorem sendArticleToChannel_events (env : Env) (article : Article) (summary : String)
    (source : Source) (chatCfg : Config) (now : Time) :
    ∀ e ∈ (sendArticleToChannel env article summary source chatCfg now).1,
      e = RunEvent.channelPhoto (resolveDestChat source) source.replyToMessageID
            article.imageURL (formatCaption article summary source chatCfg now)
      ∨ e = RunEvent.channelText (resolveDestChat source) source.replyToMessageID
            (formatCaption article summary source chatCfg now) := by
  intro e he
  simp only [sendArticleToChannel] at he
  split at he
  · split at he <;> simp_all
  · split at he
    · simp_all
    · split at he <;> simp_all

/-- C10: on approval, the article handed to the delivery path carries
the pending row's `createdAt` (the moderation-entry time) as its
publication time — the original discovery publish time is not persisted
in the row — so every channel send of the approve action carries the
caption whose publish date/time render `createdAt`, never "N/A" and
never the discovery time. -/
theorem claim_C10 (env : Env) (storage : StorageState) (cb : CallbackInfo)
    (articleID : Int) (now : Time) (pa : PendingArticle) (cfg : Config)
    (hpa : GetPendingArticle storage articleID = some pa)
    (hadmin : env.isChatAdmin pa.chatID cb.fromUserID = true)
    (hcfg : env.getChatConfig pa.chatID = .ok cfg) :
    (approveArticleToPost pa).publicationTime = some pa.createdAt
    ∧ publishDateStr (approveArticleToPost pa).publicationTime
        = goTimeFormat "2 January 2006" pa.createdAt
    ∧ publishDateStr (approveArticleToPost pa).publicationTime ≠ "N/A"
    ∧ (∀ e ∈ (handleApproveArticle env storage cb articleID now).2,
        e.isChannelSend = true →
          e = RunEvent.channelPhoto (resolveDestChat (approveSource storage pa))
                (approveSource storage pa).replyToMessageID (approveArticleToPost pa).imageURL
                (formatCaption (approveArticleToPost pa) pa.summary
                  (approveSource storage pa) cfg now)
          ∨ e = RunEvent.channelText (resolveDestChat (approveSource storage pa))
                (approveSource storage pa).replyToMessageID
                (formatCaption (approveArticleToPost pa) pa.summary
                  (approveSource storage pa) cfg now)) := by
  refine ⟨rfl, rfl, ?_, ?_⟩
  · intro h
    rw [show publishDateStr (approveArticleToPost pa).publicationTime
        = goTimeFormat "2 January 2006" pa.createdAt from rfl] at h
    have hl := congrArg String.length h
    simp only [goTimeFormat, String.length_append] at hl
    have h14 : ("2 January 2006" : String).length = 14 := rfl
    have hbar : ("|" : String).length = 1 := rfl
    have hna : ("N/A" : String).length = 3 := rfl
    rw [h14, hbar, hna] at hl
    omega
  · have hevts := sendArticleToChannel_events env (approveArticleToPost pa) pa.summary
      (approveSource storage pa) cfg now
    rcases hs : sendArticleToChannel env (approveArticleToPost pa) pa.summary
        (approveSource storage pa) cfg now with ⟨evs, res⟩
    rw [hs] at hevts
    simp only at hevts
    intro e he hchan
    cases res with
    | error u =>
      have happ : (handleApproveArticle env storage cb articleID now).2 = evs := by
        simp [handleApproveArticle, hpa, hadmin, hcfg, hs]
      rw [happ] at he
      exact hevts e he
    | ok u =>
      have happ : (handleApproveArticle env storage cb articleID now).2
          = evs ++ [RunEvent.editMessage cb.chatID cb.messageID
              (cb.messageText ++ "\n\n" ++
                sprintf1 (GetMessage (env.langOf pa.chatID) "approval_action_approved")
                  cb.fromFirstName) none] := by
        simp [handleApproveArticle, hpa, hadmin, hcfg, hs]
      rw [happ] at he
      rcases List.mem_append.mp he with hin | hin
      · exact hevts e hin
      · simp only [List.mem_singleton] at hin
        subst hin
        cases hchan

/-- Witness for C10: approving `paFix` renders its `createdAt` (50) in
the publish-date field, and every channel send of the approval carries
the caption built from the rebuilt article. -/
theorem claim_C10_witness :
    (approveArticleToPost paFix).publicationTime = some 50
    ∧ publishDateStr (approveArticleToPost paFix).publicationTime
        = goTimeFormat "2 January 2006" 50
    ∧ publishDateStr (approveArticleToPost paFix).publicationTime ≠ "N/A"
    ∧ (∀ e ∈ (handleApproveArticle env0 stPending cbFix 10 77).2,
        e.isChannelSend = true →
          e = RunEvent.channelPhoto (resolveDestChat (approveSource stPending paFix))
                (approveSource stPending paFix).replyToMessageID
                (approveArticleToPost paFix).imageURL
                (formatCaption (approveArticleToPost paFix) paFix.summary
                  (approveSource stPending paFix) cfgBase 77)
          ∨ e = RunEvent.channelText (resolveDestChat (approveSource stPending paFix))
                (approveSource stPending paFix).replyToMessageID
                (formatCaption (approveArticleToPost paFix) paFix.summary
                  (approveSource stPending paFix) cfgBase 77)) :=
  claim_C10 env0 stPending cbFix 10 77 paFix cfgBase (by decide) (by decide) rfl

end NewsBot
